import Mathlib

set_option autoImplicit false

/-!
Shallow embedding of `src/main.py` (server initialization workflow) and
verification of its specification claims.

The embedding models the pure decision logic of the script faithfully:

* JSON values (as produced by `json.loads`) are modelled by `ServerInit.Json`,
  with Python truthiness.
* Python dicts keyed by strings are modelled as association lists with
  first-match lookup and in-place update (Python dict keys are unique, so the
  two semantics agree on every dict the program builds).
* Interactive prompts, menu selections, subprocess results and task-body
  behaviour are inputs to the model (the script consumes them through
  well-defined interfaces); everything the script computes from them is
  translated from the source.
* Exceptions (`SystemExit`, `RuntimeError`, `IndexError`,
  `UnicodeDecodeError`) are modelled with `Except` / `Option`, and uncaught
  propagation out of the task loop is modelled explicitly in the workflow
  driver.
-/

namespace ServerInit

/-- A JSON value, as returned by `json.loads`. -/
inductive Json where
  | null : Json
  | bool (b : Bool) : Json
  | num (n : Int) : Json
  | str (s : String) : Json
  | arr (elts : List Json) : Json
  | obj (fields : List (String × Json)) : Json

/-- Python truthiness of a JSON value (`bool(x)` in Python). -/
def Json.truthy : Json → Bool
  | .null => false
  | .bool b => b
  | .num n => n != 0
  | .str s => s != ""
  | .arr elts => !elts.isEmpty
  | .obj fields => !fields.isEmpty

/-- Model of a Python dict keyed by strings, as an association list. -/
abbrev Dict := List (String × Json)

/-- Lookup `d.get(k)`: first match (Python dicts have unique keys). -/
def dictGet (d : Dict) (k : String) : Option Json :=
  (d.find? (fun p => p.1 == k)).map (·.2)

/-- Assignment `d[k] = v`: replace the value at the first occurrence of `k`
in place, or append a new entry (Python dict keys are unique, so this is
exactly the Python dict assignment). -/
def dictSet : Dict → String → Json → Dict
  | [], k, v => [(k, v)]
  | p :: tl, k, v => if p.1 == k then (k, v) :: tl else p :: dictSet tl k v

/-- Python truthiness of `d.get(k)` (`None` is falsy). -/
def dictGetTruthy (d : Dict) (k : String) : Bool :=
  match dictGet d k with
  | none => false
  | some v => v.truthy

/- The `Context` class constants from `main.py`. -/
namespace Context

def ROOT : String := "root"

def EXISTING_USER : String := "user"

def LOCAL : String := "local"

end Context

/-- The `TaskDefinition` dataclass: key, title, description. -/
structure TaskDefinition where
  key : String
  title : String
  description : String
deriving Repr, DecidableEq

/-- The fixed task registry `TASKS` from `main.py`. -/
def TASKS : List TaskDefinition :=
  [ ⟨"os", "OS settings (hostname + user)", "Manage hostname and users"⟩,
    ⟨"ssh", "SSH setup", "Populate authorised keys and secure SSH"⟩,
    ⟨"zsh", "Customized zsh", "Install zsh, plugins, and dotfiles"⟩,
    ⟨"conda", "Miniconda", "Install Miniconda and base environment"⟩,
    ⟨"git", "Git setup", "Configure git identity"⟩ ]

/-- Membership in `TASK_INDEX_BY_KEY`: is `k` a registered task key? -/
def isRegisteredKey (k : String) : Bool :=
  TASKS.any (fun t => t.key == k)

/-- Lookup `TASK_INDEX_BY_KEY[k]` (keys in `TASKS` are unique). -/
def taskIndexByKey (k : String) : Option Nat :=
  (TASKS.map (·.key)).indexOf? k

/-- Function `defaults_for_context`, i.e. `DEFAULTS_BY_CONTEXT.get(context, [])`.
The index lists are the concrete values computed by `TASK_INDEX_BY_KEY` in the
source (`os ↦ 0, ssh ↦ 1, zsh ↦ 2, conda ↦ 3, git ↦ 4`). -/
def defaults_for_context (context : String) : List Nat :=
  if context == Context.ROOT then [0, 1, 2, 3]
  else if context == Context.EXISTING_USER then [1, 2, 3]
  else if context == Context.LOCAL then [2, 3]
  else []

/-- Function `order_tasks_from_indices` from `main.py`:
`selected_keys = {TASKS[i].key for i in indices}` followed by a filter of the
registry key list and a lookup via `ordered_keys.index(key)`.  An out-of-range
index makes Python raise `IndexError`; this is modelled by `none`. -/
def order_tasks_from_indices (indices : List Nat) : Option (List TaskDefinition) :=
  match indices.mapM (fun i => TASKS.get? i) with
  | none => none
  | some sel =>
    let selected_keys := sel.map (·.key)
    let ordered_keys := TASKS.map (·.key)
    (ordered_keys.filter (fun k => selected_keys.contains k)).mapM
      (fun k => TASKS.get? (ordered_keys.indexOf k))

/-- Function `should_skip(task_key, context)` from `main.py`. -/
def should_skip (task_key context : String) : Bool :=
  if context == Context.EXISTING_USER && task_key == "os" then true
  else if context == Context.LOCAL && task_key == "ssh" then true
  else false

/-- The parsed CLI flags relevant to the core logic (`argparse` namespace). -/
structure Args where
  tasks : Option String
  yes : Bool
  dry_run : Bool
  force : Bool
  no_menu : Bool
deriving Repr, DecidableEq

/-- The `ExecutionOptions` dataclass. -/
structure ExecutionOptions where
  dry_run : Bool
  sudo_allowed : Bool
  force : Bool
  auto_confirm : Bool
deriving Repr, DecidableEq

/-- Result of `prompt_yes_no(message, default=d, auto_confirm=a)`: with
auto-confirm the prompt returns `true` without asking; otherwise the
operator's answer decides, with `none` (empty input / end-of-input) giving
the default. -/
def prompt_yes_no_result (default auto_confirm : Bool) (answer : Option Bool) : Bool :=
  if auto_confirm then true
  else match answer with
  | some b => b
  | none => default

/-- Function `ensure_command_execution_safety(args)` from `main.py`:
`dry_run = args.dry_run or not args.force`, sudo permission from a yes/no
prompt with default `False` and `auto_confirm=args.yes`. -/
def ensure_command_execution_safety (args : Args) (sudoAnswer : Option Bool) :
    ExecutionOptions :=
  { dry_run := args.dry_run || !args.force
    sudo_allowed := prompt_yes_no_result false args.yes sudoAnswer
    force := args.force
    auto_confirm := args.yes }

/-! ## Command runner (`CommandRunner.run`) -/

/-- Characters left unquoted by `shlex.quote`: ASCII word characters
(alphanumerics and underscore) plus `@ % + = : , . /` and the hyphen. -/
def shlexSafeChar (c : Char) : Bool :=
  c.isAlphanum || c == '_' || c == '@' || c == '%' || c == '+' || c == '=' ||
  c == ':' || c == ',' || c == '.' || c == '/' || c == '-'

/-- A single-quote character as a string. -/
def singleQuote : String := String.singleton (Char.ofNat 39)

/-- Replacement performed by `shlex.quote` on each character: a single quote
becomes quote, double-quoted quote, quote. -/
def escapeQuoteChar (ch : Char) : List Char :=
  if ch == Char.ofNat 39 then
    (singleQuote ++ "\"" ++ singleQuote ++ "\"" ++ singleQuote).data
  else [ch]

/-- Python `shlex.quote(s)`. -/
def shlexQuote (s : String) : String :=
  if s == "" then singleQuote ++ singleQuote
  else if s.data.all shlexSafeChar then s
  else
    singleQuote ++ String.mk ((s.data.map escapeQuoteChar).flatten) ++ singleQuote

/-- Python `shlex.join(cmd)`. -/
def shlexJoin (cmd : List String) : String :=
  String.intercalate " " (cmd.map shlexQuote)

/-- Lexicographic comparison of strings by code point (Python `str` order). -/
def charListLe : List Char → List Char → Bool
  | [], _ => true
  | _ :: _, [] => false
  | a :: as, b :: bs =>
    if a.toNat < b.toNat then true
    else if b.toNat < a.toNat then false
    else charListLe as bs

/-- Insert into a sorted list of strings (helper for `pySorted`). -/
def insertSorted (x : String) : List String → List String
  | [] => [x]
  | y :: ys => if charListLe x.data y.data then x :: y :: ys else y :: insertSorted x ys

/-- Python `sorted` on a list of strings (insertion sort). -/
def pySorted (l : List String) : List String := l.foldr insertSorted []

/-- Python `repr` of a string without embedded quotes. -/
def pyStrRepr (s : String) : String := singleQuote ++ s ++ singleQuote

/-- Python `repr` of a list of strings, as interpolated by an f-string. -/
def pyListRepr (l : List String) : String :=
  "[" ++ String.intercalate ", " (l.map pyStrRepr) ++ "]"

/-- Python `str` of a bool, as interpolated by an f-string. -/
def pyBoolRepr (b : Bool) : String := if b then "True" else "False"

/-- First log line of `CommandRunner.run`. -/
def cmdLogLine (timestamp joined : String) : String :=
  "\n[" ++ timestamp ++ "] CMD: " ++ joined ++ "\n"

/-- Second log line of `CommandRunner.run`. -/
def ctxLogLine (cwd_str : String) (useSudo : Bool) (env_keys : List String) : String :=
  "cwd=" ++ cwd_str ++ " sudo=" ++ pyBoolRepr useSudo ++
    " env_overrides=" ++ pyListRepr env_keys ++ "\n"

/-- An observable effect of `CommandRunner.run`: a write to the log file, or
the spawning of a subprocess (with the supplied environment overrides). -/
inductive RunEvent where
  | log (text : String) : RunEvent
  | spawn (cmd : List String) (env : List (String × String)) : RunEvent

/-- Result of `subprocess.run` with captured output. -/
structure ProcResult where
  returncode : Int
  stdout : String
  stderr : String

/-- Exceptions `CommandRunner.run` can raise. -/
inductive RunnerError where
  | sudoNotAllowed : RunnerError
  | commandFailed (code : Int) (joined : String) : RunnerError

/-- Full outcome of one `CommandRunner.run` call: the ordered effect trace
plus the returned value or raised exception. -/
structure RunOutcome where
  events : List RunEvent
  result : Except RunnerError (Option ProcResult)

/-- Method `CommandRunner.run` from `main.py`.  The runner state is
`dry_run`/`sudo_allowed`; `processCwd` is `os.getcwd()`, `timestamp` the
formatted current time, and `proc` the result `subprocess.run` would produce
in live mode. -/
def runnerRun (dry_run sudo_allowed : Bool) (command : List String) (useSudo : Bool)
    (cwd : Option String) (processCwd timestamp : String)
    (env : List (String × String)) (check : Bool) (proc : ProcResult) : RunOutcome :=
  if useSudo && !sudo_allowed then
    { events := [], result := .error .sudoNotAllowed }
  else
    let cmd_list := if useSudo then "sudo" :: "--" :: command else command
    let joined := shlexJoin cmd_list
    let cwd_str := match cwd with | some c => c | none => processCwd
    let env_keys := pySorted (env.map (·.1))
    let pre := [RunEvent.log (cmdLogLine timestamp joined),
                RunEvent.log (ctxLogLine cwd_str useSudo env_keys)]
    if dry_run then
      { events := pre ++ [RunEvent.log "(dry-run) Command not executed.\n"],
        result := .ok none }
    else
      let post :=
        [RunEvent.spawn cmd_list env,
         RunEvent.log ("exit_code=" ++ toString proc.returncode ++ "\n")] ++
        (if proc.stdout != "" then [RunEvent.log ("--- stdout ---\n" ++ proc.stdout)] else []) ++
        (if proc.stderr != "" then [RunEvent.log ("--- stderr ---\n" ++ proc.stderr)] else [])
      { events := pre ++ post
        result :=
          if check && proc.returncode != 0 then
            .error (.commandFailed proc.returncode joined)
          else .ok (some proc) }

/-! ## State management (`load_state` / `save_state`) -/

/-- Result of `load_state`: the returned value and whether the
parse-failure warning was printed. -/
structure LoadedState where
  value : Json
  warned : Bool

/-- Is `b` a UTF-8 continuation byte (0x80 to 0xBF)? -/
def isUtf8Cont (b : Nat) : Bool := 0x80 ≤ b && b ≤ 0xBF

/-- Strict UTF-8 decoding of a byte sequence, as performed by
`path.read_text(encoding="utf-8")`.  `none` models the `UnicodeDecodeError`
Python raises on invalid input: invalid lead bytes, truncated or invalid
continuation bytes, overlong encodings, surrogate code points, and code
points above 0x10FFFF are all rejected, matching CPython.  Two-byte
sequences need lead 0xC2 to 0xDF; for three-byte sequences lead 0xE0
requires a first continuation of at least 0xA0 (no overlong forms) and lead
0xED one of at most 0x9F (no surrogates); for four-byte sequences lead 0xF0
requires at least 0x90 and lead 0xF4 at most 0x8F (at most U+10FFFF). -/
def utf8Decode : List Nat → Option (List Char)
  | [] => some []
  | b :: rest =>
    if b ≤ 0x7F then
      (utf8Decode rest).map (fun cs => Char.ofNat b :: cs)
    else if b ≤ 0xC1 then none
    else if b ≤ 0xDF then
      match rest with
      | b1 :: rest2 =>
        if isUtf8Cont b1 then
          (utf8Decode rest2).map (fun cs =>
            Char.ofNat ((b - 0xC0) * 0x40 + (b1 - 0x80)) :: cs)
        else none
      | [] => none
    else if b ≤ 0xEF then
      match rest with
      | b1 :: b2 :: rest3 =>
        if (if b = 0xE0 then 0xA0 ≤ b1 && b1 ≤ 0xBF
            else if b = 0xED then 0x80 ≤ b1 && b1 ≤ 0x9F
            else isUtf8Cont b1) && isUtf8Cont b2 then
          (utf8Decode rest3).map (fun cs =>
            Char.ofNat ((b - 0xE0) * 0x1000 + (b1 - 0x80) * 0x40 + (b2 - 0x80)) :: cs)
        else none
      | _ => none
    else if b ≤ 0xF4 then
      match rest with
      | b1 :: b2 :: b3 :: rest4 =>
        if (if b = 0xF0 then 0x90 ≤ b1 && b1 ≤ 0xBF
            else if b = 0xF4 then 0x80 ≤ b1 && b1 ≤ 0x8F
            else isUtf8Cont b1) && isUtf8Cont b2 && isUtf8Cont b3 then
          (utf8Decode rest4).map (fun cs =>
            Char.ofNat ((b - 0xF0) * 0x40000 + (b1 - 0x80) * 0x1000 +
              (b2 - 0x80) * 0x40 + (b3 - 0x80)) :: cs)
        else none
      | _ => none
    else none

/-- An exception that escapes `load_state` uncaught. -/
inductive PyError where
  | unicodeDecodeError : PyError
deriving Repr, DecidableEq

/-- Function `load_state(path)` from `main.py`.  `file` is `none` when the
path is absent or the file does not exist; otherwise it is the raw bytes of
the file.  `read_text(encoding="utf-8")` decodes them strictly, and the
`except` clause catches only `json.JSONDecodeError`, so a decoding failure
escapes as an uncaught `UnicodeDecodeError` (`Except.error`).  `pyJsonLoads`
abstracts `json.loads` on the decoded text, with `none` for
`JSONDecodeError`. -/
def load_state (file : Option (List Nat)) (pyJsonLoads : String → Option Json) :
    Except PyError LoadedState :=
  match file with
  | none => .ok { value := Json.obj [], warned := false }
  | some bytes =>
    match utf8Decode bytes with
    | none => .error PyError.unicodeDecodeError
    | some chars =>
      match pyJsonLoads (String.mk chars) with
      | some j => .ok { value := j, warned := false }
      | none => .ok { value := Json.obj [], warned := true }

/-- Function `save_state(path, state)` from `main.py`: returns the mapping
persisted to the path (`none` when no path is given). -/
def save_state (path : Option String) (state : Dict) : Option Dict :=
  match path with
  | none => none
  | some _ => some state

/-! ## Task selection resolution (`resolve_tasks`) -/

/-- Python truthiness of `args.tasks` (an optional string). -/
def pyStrTruthy (s : Option String) : Bool :=
  match s with
  | none => false
  | some t => t != ""

/-- Python `s.split(",")`: split at every comma, keeping empty pieces. -/
def splitComma : List Char → List (List Char)
  | [] => [[]]
  | ch :: rest =>
    match splitComma rest with
    | [] => [[]]
    | hd :: tl => if ch == ',' then [] :: hd :: tl else (ch :: hd) :: tl

/-- Python `s.strip()`: drop whitespace from both ends. -/
def stripList (l : List Char) : List Char :=
  ((l.dropWhile Char.isWhitespace).reverse.dropWhile Char.isWhitespace).reverse

/-- Python `s.lower()` on an ASCII character. -/
def pyLowerChar (c : Char) : Char :=
  if 65 ≤ c.toNat && c.toNat ≤ 90 then Char.ofNat (c.toNat + 32) else c

/-- Token list from `args.tasks`:
`[token.strip().lower() for token in args.tasks.split(",") if token.strip()]`. -/
def parseTaskTokens (s : String) : List String :=
  ((splitComma s.data).map
      (fun token => String.mk ((stripList token).map pyLowerChar))).filter
    (fun token => token != "")

/-- Function `resolve_tasks` from `main.py`.  `menuSelection` is the
multi-select menu result when the menu is shown (`none` models the operator
aborting the menu, which raises `SystemExit`).  `Except.error` models
`SystemExit` with its message. -/
def resolve_tasks (args : Args) (context : String) (use_menu : Bool)
    (menuSelection : Option (List Nat)) : Except String (List Nat) :=
  let viaMenu : List Nat → Except String (List Nat) := fun indices =>
    if args.no_menu || !use_menu || (pyStrTruthy args.tasks && args.yes) then
      Except.ok indices
    else
      match menuSelection with
      | none => Except.error "User aborted selection."
      | some chosen => Except.ok chosen
  if pyStrTruthy args.tasks then
    let requested := parseTaskTokens (args.tasks.getD "")
    let invalid := requested.filter (fun token => !isRegisteredKey token)
    if !invalid.isEmpty then
      Except.error ("Invalid task identifiers: " ++ String.intercalate ", " invalid)
    else
      -- every token passed validation, so `taskIndexByKey` succeeds on each
      viaMenu (requested.filterMap taskIndexByKey)
  else
    viaMenu (defaults_for_context context)

/-! ## Workflow driver (`main`, lines 903-934) -/

/-- Behaviour of one task body when invoked: it either returns normally
(`marked` records whether it reached its final `mark_task_complete` call;
`task_miniconda` has early `return` paths that do not), or raises an
uncaught exception (e.g. a `RuntimeError` from the command runner). -/
inductive BodyOutcome where
  | ret (marked : Bool) : BodyOutcome
  | raise : BodyOutcome

/-- Keys of `TASK_IMPLEMENTATIONS`. -/
def TASK_IMPLEMENTATION_KEYS : List String := ["os", "ssh", "zsh", "conda", "git"]

/-- Observable outcome of the task loop and final journal write. -/
structure RunEffects where
  invoked : List String
  markersWritten : List String
  contextSkipped : List String
  completed : Dict
  raised : Bool
  savedJournal : Option Dict

/-- The task loop of `main` (lines 906-934): iterates the ordered tasks,
applying the context-skip rule, the marker check, and the journal check, then
invokes the body.  A raised exception stops the loop; the `finally` block
only closes the runner, and `save_state` (which follows the `try` statement)
is reached only when no exception propagates, so `savedJournal` is `none`
exactly on a raise.  `mark_task_complete` (called at the end of a body)
writes a marker file only when the body reaches it and `dry_run` is false. -/
def runLoop (force : Bool) (opts : ExecutionOptions) (context : String)
    (outcomes : String → BodyOutcome) :
    List TaskDefinition → Dict → List String → RunEffects
  | [], completed, _markers =>
    { invoked := [], markersWritten := [], contextSkipped := [],
      completed := completed, raised := false, savedJournal := some completed }
  | t :: rest, completed, markers =>
    if should_skip t.key context then
      let r := runLoop force opts context outcomes rest completed markers
      { r with contextSkipped := t.key :: r.contextSkipped }
    else if !force && markers.contains t.key then
      runLoop force opts context outcomes rest
        (dictSet completed t.key (Json.bool true)) markers
    else if dictGetTruthy completed t.key && !force then
      runLoop force opts context outcomes rest completed markers
    else if !(TASK_IMPLEMENTATION_KEYS.contains t.key) then
      runLoop force opts context outcomes rest completed markers
    else
      match outcomes t.key with
      | .raise =>
        { invoked := [t.key], markersWritten := [], contextSkipped := [],
          completed := completed, raised := true, savedJournal := none }
      | .ret marked =>
        let wrote := marked && !opts.dry_run
        let markers2 := if wrote then t.key :: markers else markers
        let completed2 := dictSet completed t.key (Json.bool true)
        let r := runLoop force opts context outcomes rest completed2 markers2
        { r with invoked := t.key :: r.invoked,
                 markersWritten := (if wrote then [t.key] else []) ++ r.markersWritten }

/-- Environment-supplied inputs of one `main` run (after context
resolution): CLI flags, prompt answers, menu selections, the loaded journal
(a Python dict, so keys are unique), and the pre-existing marker files. -/
structure WorkflowInput where
  args : Args
  sudoAnswer : Option Bool
  context : String
  menuSelection : Option (List Nat)
  journal : Dict
  markers0 : List String
  outcomes : String → BodyOutcome

/-- The core pipeline of `main`: resolve the task selection, resolve the
execution options, order the tasks, run the loop, and save the journal.
`Except.error` models `SystemExit` (selection abort or validation failure)
raised before any task executes; `completed` starts as a copy of the loaded
journal (`completed.update(state)` on a fresh dict). -/
def mainModel (inp : WorkflowInput) : Except String RunEffects :=
  match resolve_tasks inp.args inp.context (!inp.args.no_menu) inp.menuSelection with
  | .error e => .error e
  | .ok selected =>
    match order_tasks_from_indices selected with
    | none => .error "IndexError"
    | some ordered =>
      let opts := ensure_command_execution_safety inp.args inp.sudoAnswer
      .ok (runLoop inp.args.force opts inp.context inp.outcomes ordered
        inp.journal inp.markers0)

end ServerInit

namespace ServerInit

/-! ## Helper lemmas: dictionary operations -/

theorem dictGet_dictSet_self (d : Dict) (k : String) (v : Json) :
    dictGet (dictSet d k v) k = some v := by
  induction d with
  | nil => simp [dictSet, dictGet, List.find?]
  | cons p tl ih =>
    by_cases hp : p.1 == k
    · simp [dictSet, dictGet, List.find?, hp]
    · simp only [dictSet, hp, if_neg, Bool.false_eq_true, if_false]
      simpa [dictGet, List.find?, hp] using ih

theorem dictGet_dictSet_ne (d : Dict) (k k' : String) (v : Json) (h : k' ≠ k) :
    dictGet (dictSet d k v) k' = dictGet d k' := by
  have hkk : (k == k') = false := by
    simp only [beq_eq_false_iff_ne, ne_eq]
    exact fun hh => h hh.symm
  induction d with
  | nil => simp [dictSet, dictGet, List.find?, hkk]
  | cons p tl ih =>
    by_cases hp : p.1 == k
    · have hpk : p.1 = k := by simpa using hp
      simp [dictSet, dictGet, List.find?, hp, hpk, hkk]
    · by_cases hq : p.1 == k'
      · simp [dictSet, dictGet, List.find?, hp, hq]
      · simp only [dictSet, hp, Bool.false_eq_true, if_false]
        simpa [dictGet, List.find?, hp, hq] using ih

/-! ## Helper lemmas: the task loop -/

theorem runLoop_completed_monotone (force : Bool) (opts : ExecutionOptions)
    (context : String) (outcomes : String → BodyOutcome)
    (tasks : List TaskDefinition) (completed : Dict) (markers : List String)
    (k : String) :
    dictGet (runLoop force opts context outcomes tasks completed markers).completed k
        = dictGet completed k ∨
    dictGet (runLoop force opts context outcomes tasks completed markers).completed k
        = some (Json.bool true) := by
  induction tasks generalizing completed markers with
  | nil => left; rfl
  | cons t rest ih =>
    simp only [runLoop]
    split
    · exact ih completed markers
    · split
      · rcases eq_or_ne k t.key with rfl | hk
        · rcases ih (dictSet completed t.key (Json.bool true)) markers with h | h
          · right; rw [h, dictGet_dictSet_self]
          · right; exact h
        · rcases ih (dictSet completed t.key (Json.bool true)) markers with h | h
          · left; rw [h, dictGet_dictSet_ne _ _ _ _ hk]
          · right; exact h
      · split
        · exact ih completed markers
        · split
          · exact ih completed markers
          · split
            · left; rfl
            · dsimp only
              rcases eq_or_ne k t.key with rfl | hk
              · rcases ih (dictSet completed t.key (Json.bool true)) _ with h | h
                · right; rw [h, dictGet_dictSet_self]
                · right; exact h
              · rcases ih (dictSet completed t.key (Json.bool true)) _ with h | h
                · left; rw [h, dictGet_dictSet_ne _ _ _ _ hk]
                · right; exact h

theorem runLoop_savedJournal (force : Bool) (opts : ExecutionOptions)
    (context : String) (outcomes : String → BodyOutcome)
    (tasks : List TaskDefinition) (completed : Dict) (markers : List String) :
    (runLoop force opts context outcomes tasks completed markers).savedJournal =
      (if (runLoop force opts context outcomes tasks completed markers).raised then
        none
      else some (runLoop force opts context outcomes tasks completed markers).completed) := by
  induction tasks generalizing completed markers with
  | nil => rfl
  | cons t rest ih =>
    simp only [runLoop]
    split
    · exact ih completed markers
    · split
      · exact ih (dictSet completed t.key (Json.bool true)) markers
      · split
        · exact ih completed markers
        · split
          · exact ih completed markers
          · split
            · rfl
            · exact ih (dictSet completed t.key (Json.bool true)) _

theorem dictGetTruthy_dictSet_true (d : Dict) (k k' : String)
    (h : dictGetTruthy d k = true ∨ k = k') :
    dictGetTruthy (dictSet d k' (Json.bool true)) k = true := by
  rcases eq_or_ne k k' with rfl | hne
  · simp [dictGetTruthy, dictGet_dictSet_self, Json.truthy]
  · rcases h with h | h
    · simpa [dictGetTruthy, dictGet_dictSet_ne _ _ _ _ hne] using h
    · exact absurd h hne

theorem runLoop_dryRun_no_markers (force : Bool) (opts : ExecutionOptions)
    (context : String) (outcomes : String → BodyOutcome)
    (tasks : List TaskDefinition) (completed : Dict) (markers : List String)
    (hdry : opts.dry_run = true) :
    (runLoop force opts context outcomes tasks completed markers).markersWritten = [] := by
  induction tasks generalizing completed markers with
  | nil => rfl
  | cons t rest ih =>
    simp only [runLoop]
    split
    · exact ih completed markers
    · split
      · exact ih (dictSet completed t.key (Json.bool true)) markers
      · split
        · exact ih completed markers
        · split
          · exact ih completed markers
          · split
            · rfl
            · dsimp only
              simpa [hdry] using
                ih (dictSet completed t.key (Json.bool true)) markers

theorem runLoop_invoked_completed (force : Bool) (opts : ExecutionOptions)
    (context : String) (outcomes : String → BodyOutcome)
    (tasks : List TaskDefinition) (completed : Dict) (markers : List String)
    (hraised : (runLoop force opts context outcomes tasks completed markers).raised = false)
    (k : String)
    (hk : k ∈ (runLoop force opts context outcomes tasks completed markers).invoked) :
    dictGet (runLoop force opts context outcomes tasks completed markers).completed k
      = some (Json.bool true) := by
  induction tasks generalizing completed markers with
  | nil => simp [runLoop] at hk
  | cons t rest ih =>
    simp only [runLoop] at hraised hk ⊢
    revert hraised hk
    split
    · exact fun hraised hk => ih completed markers hraised hk
    · split
      · exact fun hraised hk =>
          ih (dictSet completed t.key (Json.bool true)) markers hraised hk
      · split
        · exact fun hraised hk => ih completed markers hraised hk
        · split
          · exact fun hraised hk => ih completed markers hraised hk
          · split
            · exact fun hraised _ => Bool.noConfusion hraised
            · dsimp only
              intro hraised hk
              rcases List.mem_cons.mp hk with rfl | hk2
              · rcases runLoop_completed_monotone force opts context outcomes rest
                    (dictSet completed t.key (Json.bool true))
                    _ t.key with h | h
                · rw [h, dictGet_dictSet_self]
                · exact h
              · exact ih (dictSet completed t.key (Json.bool true)) _ hraised hk2

theorem runLoop_already_complete_not_invoked (opts : ExecutionOptions)
    (context : String) (outcomes : String → BodyOutcome)
    (tasks : List TaskDefinition) (completed : Dict) (markers : List String)
    (k : String)
    (hk : k ∈ markers ∨ dictGetTruthy completed k = true) :
    k ∉ (runLoop false opts context outcomes tasks completed markers).invoked := by
  induction tasks generalizing completed markers with
  | nil => simp [runLoop]
  | cons t rest ih =>
    simp only [runLoop]
    by_cases h1 : should_skip t.key context = true
    · rw [if_pos h1]
      exact ih completed markers hk
    · rw [if_neg h1]
      by_cases h2 : (!false && markers.contains t.key) = true
      · rw [if_pos h2]
        refine ih (dictSet completed t.key (Json.bool true)) markers ?_
        rcases hk with h | h
        · exact Or.inl h
        · exact Or.inr (dictGetTruthy_dictSet_true _ _ _ (Or.inl h))
      · rw [if_neg h2]
        by_cases h3 : (dictGetTruthy completed t.key && !false) = true
        · rw [if_pos h3]
          exact ih completed markers hk
        · rw [if_neg h3]
          by_cases h4 : (!TASK_IMPLEMENTATION_KEYS.contains t.key) = true
          · rw [if_pos h4]
            exact ih completed markers hk
          · rw [if_neg h4]
            have hne : k ≠ t.key := by
              rintro rfl
              rcases hk with h | h
              · exact h2 (by simp [List.contains, List.elem_iff, h])
              · exact h3 (by simp [h])
            cases houtc : outcomes t.key with
            | raise =>
              dsimp only
              intro hmem
              exact hne (List.mem_singleton.mp hmem)
            | ret marked =>
              dsimp only
              intro hmem
              rcases List.mem_cons.mp hmem with h | h
              · exact hne h
              · refine ih (dictSet completed t.key (Json.bool true)) _ ?_ h
                rcases hk with hmark | htruthy
                · left
                  split
                  · exact List.mem_cons_of_mem _ hmark
                  · exact hmark
                · exact Or.inr (dictGetTruthy_dictSet_true _ _ _ (Or.inl htruthy))

theorem runLoop_force_invoked (opts : ExecutionOptions)
    (context : String) (outcomes : String → BodyOutcome)
    (tasks : List TaskDefinition) (completed : Dict) (markers : List String)
    (t : TaskDefinition)
    (hns : should_skip t.key context = false)
    (himpl : TASK_IMPLEMENTATION_KEYS.contains t.key = true)
    (ht : t ∈ tasks)
    (hraised : (runLoop true opts context outcomes tasks completed markers).raised = false) :
    t.key ∈ (runLoop true opts context outcomes tasks completed markers).invoked := by
  induction tasks generalizing completed markers with
  | nil => cases ht
  | cons thead rest ih =>
    simp only [runLoop] at hraised ⊢
    rcases List.mem_cons.mp ht with heq | htr
    · subst heq
      rw [if_neg (by rw [hns]; exact Bool.noConfusion)] at hraised ⊢
      rw [if_neg (by simp)] at hraised ⊢
      rw [if_neg (by simp)] at hraised ⊢
      rw [if_neg (by rw [himpl]; exact Bool.noConfusion)] at hraised ⊢
      cases houtc : outcomes t.key with
      | raise =>
        dsimp only
        exact List.mem_singleton.mpr rfl
      | ret marked =>
        dsimp only
        exact List.mem_cons_self _ _
    · by_cases h1 : should_skip thead.key context = true
      · rw [if_pos h1] at hraised ⊢
        exact ih completed markers htr hraised
      · rw [if_neg h1] at hraised ⊢
        by_cases h2 : (!true && markers.contains thead.key) = true
        · rw [if_pos h2] at hraised ⊢
          exact ih (dictSet completed thead.key (Json.bool true)) markers htr hraised
        · rw [if_neg h2] at hraised ⊢
          by_cases h3 : (dictGetTruthy completed thead.key && !true) = true
          · rw [if_pos h3] at hraised ⊢
            exact ih completed markers htr hraised
          · rw [if_neg h3] at hraised ⊢
            by_cases h4 : (!TASK_IMPLEMENTATION_KEYS.contains thead.key) = true
            · rw [if_pos h4] at hraised ⊢
              exact ih completed markers htr hraised
            · rw [if_neg h4] at hraised ⊢
              cases houtc : outcomes thead.key with
              | raise =>
                rw [houtc] at hraised
                dsimp only at hraised
                exact Bool.noConfusion hraised
              | ret marked =>
                rw [houtc] at hraised
                dsimp only at hraised ⊢
                exact List.mem_cons_of_mem _
                  (ih (dictSet completed thead.key (Json.bool true)) _ htr hraised)

theorem runLoop_force_marks (opts : ExecutionOptions)
    (context : String) (outcomes : String → BodyOutcome)
    (tasks : List TaskDefinition) (completed : Dict) (markers : List String)
    (t : TaskDefinition)
    (hdry : opts.dry_run = false)
    (hns : should_skip t.key context = false)
    (himpl : TASK_IMPLEMENTATION_KEYS.contains t.key = true)
    (hout : outcomes t.key = BodyOutcome.ret true)
    (ht : t ∈ tasks)
    (hraised : (runLoop true opts context outcomes tasks completed markers).raised = false) :
    t.key ∈ (runLoop true opts context outcomes tasks completed markers).markersWritten ∧
    dictGet (runLoop true opts context outcomes tasks completed markers).completed t.key
      = some (Json.bool true) := by
  induction tasks generalizing completed markers with
  | nil => cases ht
  | cons thead rest ih =>
    simp only [runLoop] at hraised ⊢
    rcases List.mem_cons.mp ht with heq | htr
    · subst heq
      rw [if_neg (by rw [hns]; exact Bool.noConfusion)] at hraised ⊢
      rw [if_neg (by simp)] at hraised ⊢
      rw [if_neg (by simp)] at hraised ⊢
      rw [if_neg (by rw [himpl]; exact Bool.noConfusion)] at hraised ⊢
      rw [hout] at hraised ⊢
      dsimp only at hraised ⊢
      rw [hdry] at hraised ⊢
      simp only [Bool.not_false, Bool.and_self, if_pos] at hraised ⊢
      constructor
      · exact List.mem_append.mpr (Or.inl (List.mem_singleton.mpr rfl))
      · rcases runLoop_completed_monotone true opts context outcomes rest
            (dictSet completed t.key (Json.bool true)) (t.key :: markers) t.key with h | h
        · rw [h, dictGet_dictSet_self]
        · exact h
    · by_cases h1 : should_skip thead.key context = true
      · rw [if_pos h1] at hraised ⊢
        exact ih completed markers htr hraised
      · rw [if_neg h1] at hraised ⊢
        by_cases h2 : (!true && markers.contains thead.key) = true
        · rw [if_pos h2] at hraised ⊢
          exact ih (dictSet completed thead.key (Json.bool true)) markers htr hraised
        · rw [if_neg h2] at hraised ⊢
          by_cases h3 : (dictGetTruthy completed thead.key && !true) = true
          · rw [if_pos h3] at hraised ⊢
            exact ih completed markers htr hraised
          · rw [if_neg h3] at hraised ⊢
            by_cases h4 : (!TASK_IMPLEMENTATION_KEYS.contains thead.key) = true
            · rw [if_pos h4] at hraised ⊢
              exact ih completed markers htr hraised
            · rw [if_neg h4] at hraised ⊢
              cases houtc : outcomes thead.key with
              | raise =>
                rw [houtc] at hraised
                dsimp only at hraised
                exact Bool.noConfusion hraised
              | ret marked =>
                rw [houtc] at hraised
                dsimp only at hraised ⊢
                rcases ih (dictSet completed thead.key (Json.bool true)) _ htr hraised
                  with ⟨hm, hc⟩
                exact ⟨List.mem_append.mpr (Or.inr hm), hc⟩

theorem runLoop_context_skip (force : Bool) (opts : ExecutionOptions)
    (context : String) (outcomes : String → BodyOutcome)
    (tasks : List TaskDefinition) (completed : Dict) (markers : List String)
    (k : String) (hskip : should_skip k context = true) :
    k ∉ (runLoop force opts context outcomes tasks completed markers).invoked ∧
    k ∉ (runLoop force opts context outcomes tasks completed markers).markersWritten ∧
    dictGet (runLoop force opts context outcomes tasks completed markers).completed k
      = dictGet completed k ∧
    ((∃ t ∈ tasks, t.key = k) →
      (runLoop force opts context outcomes tasks completed markers).raised = false →
      k ∈ (runLoop force opts context outcomes tasks completed markers).contextSkipped) := by
  induction tasks generalizing completed markers with
  | nil =>
    refine ⟨by simp [runLoop], by simp [runLoop], rfl, ?_⟩
    rintro ⟨t, ht, -⟩ _
    cases ht
  | cons thead rest ih =>
    simp only [runLoop]
    by_cases h1 : should_skip thead.key context = true
    · rw [if_pos h1]
      obtain ⟨ha, hb, hc, hd⟩ := ih completed markers
      refine ⟨ha, hb, hc, ?_⟩
      intro hex hr
      dsimp only
      rcases hex with ⟨t, htmem, hkey⟩
      rcases List.mem_cons.mp htmem with rfl | htr
      · exact hkey ▸ List.mem_cons_self _ _
      · exact List.mem_cons_of_mem _ (hd ⟨t, htr, hkey⟩ hr)
    · have hne : k ≠ thead.key := fun hh => h1 (hh ▸ hskip)
      rw [if_neg h1]
      by_cases h2 : (!force && markers.contains thead.key) = true
      · rw [if_pos h2]
        obtain ⟨ha, hb, hc, hd⟩ := ih (dictSet completed thead.key (Json.bool true)) markers
        refine ⟨ha, hb, ?_, ?_⟩
        · rw [hc, dictGet_dictSet_ne _ _ _ _ hne]
        · intro hex hr
          rcases hex with ⟨t, htmem, hkey⟩
          rcases List.mem_cons.mp htmem with rfl | htr
          · exact absurd hkey.symm hne
          · exact hd ⟨t, htr, hkey⟩ hr
      · rw [if_neg h2]
        by_cases h3 : (dictGetTruthy completed thead.key && !force) = true
        · rw [if_pos h3]
          obtain ⟨ha, hb, hc, hd⟩ := ih completed markers
          refine ⟨ha, hb, hc, ?_⟩
          intro hex hr
          rcases hex with ⟨t, htmem, hkey⟩
          rcases List.mem_cons.mp htmem with rfl | htr
          · exact absurd hkey.symm hne
          · exact hd ⟨t, htr, hkey⟩ hr
        · rw [if_neg h3]
          by_cases h4 : (!TASK_IMPLEMENTATION_KEYS.contains thead.key) = true
          · rw [if_pos h4]
            obtain ⟨ha, hb, hc, hd⟩ := ih completed markers
            refine ⟨ha, hb, hc, ?_⟩
            intro hex hr
            rcases hex with ⟨t, htmem, hkey⟩
            rcases List.mem_cons.mp htmem with rfl | htr
            · exact absurd hkey.symm hne
            · exact hd ⟨t, htr, hkey⟩ hr
          · rw [if_neg h4]
            cases houtc : outcomes thead.key with
            | raise =>
              dsimp only
              refine ⟨?_, by simp, rfl, ?_⟩
              · intro hm
                exact hne (List.mem_singleton.mp hm)
              · intro _ hr
                exact Bool.noConfusion hr
            | ret marked =>
              dsimp only
              obtain ⟨ha, hb, hc, hd⟩ :=
                ih (dictSet completed thead.key (Json.bool true))
                  (if (marked && !opts.dry_run) = true then thead.key :: markers else markers)
              refine ⟨?_, ?_, ?_, ?_⟩
              · intro hm
                rcases List.mem_cons.mp hm with he | hm2
                · exact hne he
                · exact ha hm2
              · intro hm
                rcases List.mem_append.mp hm with hl | hr2
                · revert hl
                  split
                  · intro hl
                    exact hne (List.mem_singleton.mp hl)
                  · intro hl
                    cases hl
                · exact hb hr2
              · rw [hc, dictGet_dictSet_ne _ _ _ _ hne]
              · intro hex hr
                rcases hex with ⟨t, htmem, hkey⟩
                rcases List.mem_cons.mp htmem with rfl | htr
                · exact absurd hkey.symm hne
                · exact hd ⟨t, htr, hkey⟩ hr

/-! ## Helper lemmas: task ordering -/

/-- The registry entry at index `i` (the default is only used out of range). -/
def taskAt (i : Nat) : TaskDefinition := TASKS.getD i ⟨"", "", ""⟩

/-- The key of the registry entry at index `i`. -/
def selectedKeyAt (i : Nat) : String := (taskAt i).key

theorem taskAt_get? (i : Nat) (h : i < TASKS.length) :
    TASKS.get? i = some (taskAt i) := by
  have h5 : i < 5 := h
  interval_cases i <;> rfl

theorem mapM_tasks (l : List Nat) (hv : ∀ i ∈ l, i < TASKS.length) :
    l.mapM (fun i => TASKS.get? i) = some (l.map taskAt) := by
  induction l with
  | nil => rfl
  | cons i tl ih =>
    rw [List.mapM_cons, taskAt_get? i (hv i (List.mem_cons_self i tl)),
      ih (fun j hj => hv j (List.mem_cons_of_mem _ hj))]
    rfl

theorem order_filter_concrete (b0 b1 b2 b3 b4 : Bool) :
    ((["os", "ssh", "zsh", "conda", "git"].filter
        (fun k => if k == "os" then b0 else if k == "ssh" then b1
          else if k == "zsh" then b2 else if k == "conda" then b3
          else if k == "git" then b4 else false)).mapM
      (fun k => TASKS.get? ((["os", "ssh", "zsh", "conda", "git"] : List String).indexOf k)))
    = some (TASKS.filter
        (fun t => if t.key == "os" then b0 else if t.key == "ssh" then b1
          else if t.key == "zsh" then b2 else if t.key == "conda" then b3
          else if t.key == "git" then b4 else false)) := by
  cases b0 <;> cases b1 <;> cases b2 <;> cases b3 <;> cases b4 <;> decide

theorem order_tasks_eq_filter (l : List Nat) (hv : ∀ i ∈ l, i < TASKS.length) :
    order_tasks_from_indices l =
      some (TASKS.filter (fun t => (l.map selectedKeyAt).contains t.key)) := by
  unfold order_tasks_from_indices
  rw [mapM_tasks l hv]
  dsimp only
  have hsel : (l.map taskAt).map (fun t => t.key) = l.map selectedKeyAt := by
    rw [List.map_map]
    rfl
  rw [hsel]
  rw [show TASKS.map (fun t => t.key) = ["os", "ssh", "zsh", "conda", "git"] from rfl]
  have hfl : (["os", "ssh", "zsh", "conda", "git"].filter
      (fun k => (l.map selectedKeyAt).contains k)) =
    (["os", "ssh", "zsh", "conda", "git"].filter
      (fun k => if k == "os" then (l.map selectedKeyAt).contains "os"
        else if k == "ssh" then (l.map selectedKeyAt).contains "ssh"
        else if k == "zsh" then (l.map selectedKeyAt).contains "zsh"
        else if k == "conda" then (l.map selectedKeyAt).contains "conda"
        else if k == "git" then (l.map selectedKeyAt).contains "git" else false)) := by
    apply List.filter_congr
    intro k hk
    fin_cases hk <;> rfl
  have hfr : (TASKS.filter (fun t => (l.map selectedKeyAt).contains t.key)) =
    (TASKS.filter
      (fun t => if t.key == "os" then (l.map selectedKeyAt).contains "os"
        else if t.key == "ssh" then (l.map selectedKeyAt).contains "ssh"
        else if t.key == "zsh" then (l.map selectedKeyAt).contains "zsh"
        else if t.key == "conda" then (l.map selectedKeyAt).contains "conda"
        else if t.key == "git" then (l.map selectedKeyAt).contains "git" else false)) := by
    apply List.filter_congr
    intro t ht
    fin_cases ht <;> rfl
  rw [hfl, hfr]
  exact order_filter_concrete _ _ _ _ _

/-- Lemma bridging `List.contains` and membership. -/
theorem contains_eq_true_iff (l : List String) (a : String) :
    l.contains a = true ↔ a ∈ l := List.elem_iff

/-- Every successful `mainModel` run is a `runLoop` over the ordered
resolution of the selected tasks. -/
theorem mainModel_ok_shape (inp : WorkflowInput) (eff : RunEffects)
    (h : mainModel inp = Except.ok eff) :
    ∃ selected ordered,
      resolve_tasks inp.args inp.context (!inp.args.no_menu) inp.menuSelection =
        Except.ok selected ∧
      order_tasks_from_indices selected = some ordered ∧
      eff = runLoop inp.args.force
        (ensure_command_execution_safety inp.args inp.sudoAnswer)
        inp.context inp.outcomes ordered inp.journal inp.markers0 := by
  unfold mainModel at h
  rcases hres : resolve_tasks inp.args inp.context (!inp.args.no_menu) inp.menuSelection
    with e | selected
  · rw [hres] at h
    exact Except.noConfusion h
  · rw [hres] at h
    dsimp only at h
    rcases hord : order_tasks_from_indices selected with _ | ordered
    · rw [hord] at h
      exact Except.noConfusion h
    · rw [hord] at h
      exact ⟨selected, ordered, rfl, hord, (Except.ok.inj h).symm⟩

/-! ## Claim C1 -/

/-- C1: for every combination of CLI flags in which the force flag is false,
`ensure_command_execution_safety` resolves `dry_run = true` regardless of the
dry-run flag itself; and real (non-dry-run) execution (`dry_run = false`) is
possible only when force is true. -/
theorem claim_C1_force_gates_real_execution :
    (∀ (args : Args) (sudoAnswer : Option Bool), args.force = false →
      (ensure_command_execution_safety args sudoAnswer).dry_run = true) ∧
    (∀ (args : Args) (sudoAnswer : Option Bool),
      (ensure_command_execution_safety args sudoAnswer).dry_run = false →
      args.force = true) := by
  constructor
  · intro args s h
    simp [ensure_command_execution_safety, h]
  · intro args s h
    cases hfc : args.force
    · exfalso
      simp [ensure_command_execution_safety, hfc] at h
    · rfl

/-- Witness for C1 at concrete flag settings. -/
theorem claim_C1_force_gates_real_execution_witness :
    (ensure_command_execution_safety ⟨none, false, false, false, false⟩ none).dry_run = true ∧
    Args.force ⟨none, false, false, true, false⟩ = true :=
  ⟨claim_C1_force_gates_real_execution.1 ⟨none, false, false, false, false⟩ none rfl,
   claim_C1_force_gates_real_execution.2 ⟨none, false, false, true, false⟩ none rfl⟩

/-! ## Claim C9 -/

/-- C9 counterexample: a resume file whose single byte 0xFF is not valid
UTF-8 makes `load_state` crash with an uncaught `UnicodeDecodeError` from
`read_text` — the `except` clause catches only `json.JSONDecodeError` — no
matter what `json.loads` would do, refuting "never fails fatally, never a
crash" for corrupt content. -/
theorem claim_C9_counterexample :
    load_state (some [0xFF]) (fun _ => none) =
      Except.error PyError.unicodeDecodeError ∧
    load_state (some [0xFF]) (fun _ => some (Json.obj [])) =
      Except.error PyError.unicodeDecodeError :=
  ⟨rfl, rfl⟩

/-- C9 amended: loading the journal is tolerant of a missing file (empty
mapping, no warning) and of a file whose bytes decode as UTF-8 but fail to
parse as JSON (empty mapping plus a printed warning, never an exception);
a file that decodes and parses is returned as is.  A resume file whose
bytes are not valid UTF-8, however, crashes with an uncaught
`UnicodeDecodeError`: the tolerance covers JSON-level corruption only, not
byte-level corruption. -/
theorem claim_C9_load_state_tolerance_scope :
    (∀ parse : String → Option Json,
      load_state none parse = Except.ok ⟨Json.obj [], false⟩) ∧
    (∀ (bytes : List Nat) (chars : List Char) (parse : String → Option Json),
      utf8Decode bytes = some chars → parse (String.mk chars) = none →
      load_state (some bytes) parse = Except.ok ⟨Json.obj [], true⟩) ∧
    (∀ (bytes : List Nat) (chars : List Char) (parse : String → Option Json)
        (j : Json),
      utf8Decode bytes = some chars → parse (String.mk chars) = some j →
      load_state (some bytes) parse = Except.ok ⟨j, false⟩) ∧
    (∀ (bytes : List Nat) (parse : String → Option Json),
      utf8Decode bytes = none →
      load_state (some bytes) parse = Except.error PyError.unicodeDecodeError) := by
  refine ⟨fun parse => rfl, ?_, ?_, ?_⟩
  · intro bytes chars p hdec hp
    simp [load_state, hdec, hp]
  · intro bytes chars p j hdec hp
    simp [load_state, hdec, hp]
  · intro bytes p hdec
    simp [load_state, hdec]

/-- Witness for the amended C9: a well-formed UTF-8 file that is not JSON
yields the empty mapping with a warning. -/
theorem claim_C9_load_state_tolerance_scope_witness :
    load_state (some [110, 111]) (fun _ => none) =
      Except.ok ⟨Json.obj [], true⟩ :=
  claim_C9_load_state_tolerance_scope.2.1 [110, 111] "no".data
    (fun _ => none) rfl rfl

/-! ## Claim C2 -/

/-- A run whose second task raises after the first completed. -/
def c2FailingInput : WorkflowInput :=
  { args := ⟨some "zsh,git", false, false, true, true⟩
    sudoAnswer := none
    context := Context.ROOT
    menuSelection := none
    journal := []
    markers0 := []
    outcomes := fun k => if k == "git" then BodyOutcome.raise else BodyOutcome.ret true }

/-- C2 counterexample: when the git task raises a command-execution error
after the zsh task completed, the exception propagates past the
`try/finally` (which only closes the log) and `save_state` — placed after
the `try` statement, not inside the `finally` — is never reached: the
journal is not written even though a task completed before the failure. -/
theorem claim_C2_counterexample :
    (mainModel c2FailingInput).toOption.map
        (fun r => (r.invoked, r.raised, dictGet r.completed "zsh", r.savedJournal)) =
      some (["zsh", "git"], true, some (Json.bool true), none) := rfl

/-- C2 amended: the completion journal is written at run end exactly when no
task body raised; an uncaught command-execution error skips the journal
write (only the log file is closed in the `finally` block), so the tasks
completed before the failure are not persisted. -/
theorem claim_C2_journal_write_skipped_on_raise (inp : WorkflowInput) (eff : RunEffects)
    (h : mainModel inp = Except.ok eff) :
    (eff.raised = false → eff.savedJournal = some eff.completed) ∧
    (eff.raised = true → eff.savedJournal = none) := by
  obtain ⟨selected, ordered, -, -, rfl⟩ := mainModel_ok_shape inp eff h
  constructor
  · intro hr
    rw [runLoop_savedJournal, hr]
    rfl
  · intro hr
    rw [runLoop_savedJournal, hr]
    rfl

/-- A run of the git task alone with force and no failure. -/
def c2OkInput : WorkflowInput :=
  { args := ⟨some "git", false, false, true, true⟩
    sudoAnswer := none
    context := Context.ROOT
    menuSelection := none
    journal := []
    markers0 := []
    outcomes := fun _ => BodyOutcome.ret true }

/-- The effects of `c2OkInput`. -/
def c2OkEffects : RunEffects :=
  { invoked := ["git"], markersWritten := ["git"], contextSkipped := []
    completed := [("git", Json.bool true)], raised := false
    savedJournal := some [("git", Json.bool true)] }

/-- Witness for the amended C2 on a concrete successful run. -/
theorem claim_C2_journal_write_skipped_on_raise_witness :
    mainModel c2OkInput = Except.ok c2OkEffects ∧
    c2OkEffects.savedJournal = some c2OkEffects.completed :=
  ⟨rfl, (claim_C2_journal_write_skipped_on_raise c2OkInput c2OkEffects rfl).1 rfl⟩

/-! ## Claim C6 -/

/-- C6: for every finite collection of valid task indices, in any order and
with any duplicates, `order_tasks_from_indices` succeeds and returns the
selected tasks in fixed registry order (a nodup sublist of `TASKS`), with
membership exactly the selected tasks; the result depends only on the set
of indices, not on their sequence or multiplicity. -/
theorem claim_C6_selection_canonical (l₁ l₂ : List Nat)
    (hv₁ : ∀ i ∈ l₁, i < TASKS.length) (hv₂ : ∀ i ∈ l₂, i < TASKS.length) :
    ((∀ i, i ∈ l₁ ↔ i ∈ l₂) →
      order_tasks_from_indices l₁ = order_tasks_from_indices l₂) ∧
    ∃ ts, order_tasks_from_indices l₁ = some ts ∧ ts.Sublist TASKS ∧ ts.Nodup ∧
      ∀ t, t ∈ ts ↔ ∃ i ∈ l₁, TASKS.get? i = some t := by
  constructor
  · intro hiff
    rw [order_tasks_eq_filter l₁ hv₁, order_tasks_eq_filter l₂ hv₂]
    congr 1
    apply List.filter_congr
    intro t _
    apply Bool.coe_iff_coe.mp
    rw [contains_eq_true_iff, contains_eq_true_iff]
    simp only [List.mem_map]
    constructor
    · rintro ⟨i, hi, hk⟩
      exact ⟨i, (hiff i).mp hi, hk⟩
    · rintro ⟨i, hi, hk⟩
      exact ⟨i, (hiff i).mpr hi, hk⟩
  · refine ⟨_, order_tasks_eq_filter l₁ hv₁, List.filter_sublist _, ?_, ?_⟩
    · exact (List.filter_sublist _).nodup (by decide : TASKS.Nodup)
    · intro t
      rw [List.mem_filter]
      constructor
      · rintro ⟨htm, hcont⟩
        rw [contains_eq_true_iff] at hcont
        rcases List.mem_map.mp hcont with ⟨i, hi, hk⟩
        refine ⟨i, hi, ?_⟩
        rw [taskAt_get? i (hv₁ i hi)]
        have h5 : i < 5 := hv₁ i hi
        have htaskmem : taskAt i ∈ TASKS := by interval_cases i <;> decide
        have hinj : ∀ a ∈ TASKS, ∀ b ∈ TASKS, a.key = b.key → a = b := by decide
        rw [hinj _ htaskmem _ htm hk]
      · rintro ⟨i, hi, hget⟩
        have heq : taskAt i = t := by
          have h2 := taskAt_get? i (hv₁ i hi)
          rw [hget] at h2
          exact (Option.some.inj h2).symm
        have h5 : i < 5 := hv₁ i hi
        constructor
        · rw [← heq]
          interval_cases i <;> decide
        · rw [contains_eq_true_iff]
          exact List.mem_map.mpr ⟨i, hi, by
            rw [show selectedKeyAt i = (taskAt i).key from rfl, heq]⟩

/-- Witness for C6: two orderings of the same index set give the same result. -/
theorem claim_C6_selection_canonical_witness :
    order_tasks_from_indices [4, 0, 1, 0] = order_tasks_from_indices [0, 1, 4] := by
  have h := claim_C6_selection_canonical [4, 0, 1, 0] [0, 1, 4] (by decide) (by decide)
  exact h.1 (by
    intro i
    constructor <;> intro hi <;> fin_cases hi <;> decide)

/-! ## Claim C3 -/

/-- A dry-run invocation of the git task (force absent, dry-run flag set). -/
def c3DryInput : WorkflowInput :=
  { args := ⟨some "git", false, true, false, true⟩
    sudoAnswer := none
    context := Context.ROOT
    menuSelection := none
    journal := []
    markers0 := []
    outcomes := fun _ => BodyOutcome.ret true }

/-- C3 counterexample: a dry-run run of the git task writes no marker file,
but `completed[task.key] = True` is recorded unconditionally in `main` and
`save_state` runs at the end regardless of dry-run, so the persisted journal
does record the task as complete — durable completion state exists after a
dry-run run. -/
theorem claim_C3_counterexample :
    (mainModel c3DryInput).toOption.map
        (fun r => (r.markersWritten, r.savedJournal)) =
      some ([], some [("git", Json.bool true)]) := rfl

/-- C3 amended: in a dry-run run no completion marker file is ever created
(`mark_task_complete` only prints), but the journal is still updated and
persisted: every invoked task of a run that does not raise ends up recorded
as complete in the saved journal. -/
theorem claim_C3_dry_run_markers_only (inp : WorkflowInput) (eff : RunEffects)
    (h : mainModel inp = Except.ok eff)
    (hdry : inp.args.dry_run = true ∨ inp.args.force = false) :
    eff.markersWritten = [] ∧
    (eff.raised = false → eff.savedJournal = some eff.completed ∧
      ∀ k, k ∈ eff.invoked → dictGet eff.completed k = some (Json.bool true)) := by
  obtain ⟨selected, ordered, -, -, rfl⟩ := mainModel_ok_shape inp eff h
  have hdry2 : (ensure_command_execution_safety inp.args inp.sudoAnswer).dry_run = true := by
    rcases hdry with h1 | h1 <;> simp [ensure_command_execution_safety, h1]
  refine ⟨runLoop_dryRun_no_markers _ _ _ _ _ _ _ hdry2, ?_⟩
  intro hr
  constructor
  · rw [runLoop_savedJournal, hr]
    rfl
  · intro k hk
    exact runLoop_invoked_completed _ _ _ _ _ _ _ hr k hk

/-- Witness for the amended C3 on the concrete dry-run input. -/
theorem claim_C3_dry_run_markers_only_witness :
    mainModel c3DryInput = Except.ok
      { invoked := ["git"], markersWritten := [], contextSkipped := []
        completed := [("git", Json.bool true)], raised := false
        savedJournal := some [("git", Json.bool true)] } ∧
    RunEffects.markersWritten
      { invoked := ["git"], markersWritten := [], contextSkipped := []
        completed := [("git", Json.bool true)], raised := false
        savedJournal := some [("git", Json.bool true)] } = [] :=
  ⟨rfl, (claim_C3_dry_run_markers_only c3DryInput _ rfl (Or.inl rfl)).1⟩

/-! ## Claim C4 -/

/-- C4: the context-based skip rule fires before any completion check: for
every run configuration (any force flag, any markers, any journal), a key
that `should_skip` rejects under the run context is never invoked, never has
a marker written, and keeps its journal entry unchanged; whenever such a
task appears in the ordered list of a run that does not raise, it is skipped
with a notice.  The two hard-coded rules are the OS task under the
existing-user context and the SSH task under the local context. -/
theorem claim_C4_context_skip_precedence (force : Bool) (opts : ExecutionOptions)
    (context : String) (outcomes : String → BodyOutcome)
    (tasks : List TaskDefinition) (completed : Dict) (markers : List String)
    (k : String) (hskip : should_skip k context = true) :
    (should_skip "os" Context.EXISTING_USER = true ∧
      should_skip "ssh" Context.LOCAL = true) ∧
    k ∉ (runLoop force opts context outcomes tasks completed markers).invoked ∧
    k ∉ (runLoop force opts context outcomes tasks completed markers).markersWritten ∧
    dictGet (runLoop force opts context outcomes tasks completed markers).completed k
      = dictGet completed k ∧
    ((∃ t ∈ tasks, t.key = k) →
      (runLoop force opts context outcomes tasks completed markers).raised = false →
      k ∈ (runLoop force opts context outcomes tasks completed markers).contextSkipped) :=
  ⟨⟨rfl, rfl⟩, runLoop_context_skip force opts context outcomes tasks completed markers k hskip⟩

/-- Witness for C4: the SSH task under the local context, explicitly
selected, with force set, an existing marker, and a true journal entry, is
still skipped with a notice and nothing is recorded. -/
theorem claim_C4_context_skip_precedence_witness :
    "ssh" ∉ (runLoop true ⟨false, false, true, false⟩ Context.LOCAL
        (fun _ => BodyOutcome.ret true)
        [⟨"ssh", "SSH setup", "Populate authorised keys and secure SSH"⟩]
        [("ssh", Json.bool true)] ["ssh"]).invoked ∧
    "ssh" ∈ (runLoop true ⟨false, false, true, false⟩ Context.LOCAL
        (fun _ => BodyOutcome.ret true)
        [⟨"ssh", "SSH setup", "Populate authorised keys and secure SSH"⟩]
        [("ssh", Json.bool true)] ["ssh"]).contextSkipped :=
  ⟨(claim_C4_context_skip_precedence true ⟨false, false, true, false⟩ Context.LOCAL
      (fun _ => BodyOutcome.ret true)
      [⟨"ssh", "SSH setup", "Populate authorised keys and secure SSH"⟩]
      [("ssh", Json.bool true)] ["ssh"] "ssh" rfl).2.1,
   (claim_C4_context_skip_precedence true ⟨false, false, true, false⟩ Context.LOCAL
      (fun _ => BodyOutcome.ret true)
      [⟨"ssh", "SSH setup", "Populate authorised keys and secure SSH"⟩]
      [("ssh", Json.bool true)] ["ssh"] "ssh" rfl).2.2.2.2
    ⟨⟨"ssh", "SSH setup", "Populate authorised keys and secure SSH"⟩,
      List.mem_singleton.mpr rfl, rfl⟩ rfl⟩

/-! ## Claim C5 -/

/-- A forced dry-run rerun of the git task with an existing marker and
journal entry. -/
def c5DryForceInput : WorkflowInput :=
  { args := ⟨some "git", false, true, true, true⟩
    sudoAnswer := none
    context := Context.ROOT
    menuSelection := none
    journal := [("git", Json.bool true)]
    markers0 := ["git"]
    outcomes := fun _ => BodyOutcome.ret true }

/-- C5 counterexample: with force and the dry-run flag both set, the git
task body runs despite its existing marker and journal entry and returns
normally, but the marker file is NOT rewritten (`mark_task_complete` only
prints in dry-run), contradicting the claim that with force the marker is
rewritten on normal return. -/
theorem claim_C5_counterexample :
    (mainModel c5DryForceInput).toOption.map
        (fun r => (r.invoked, r.markersWritten)) =
      some (["git"], []) := rfl

/-- C5 amended: with force off, a task marked complete by an existing marker
or a truthy journal entry is never invoked; with force on, every
non-context-skipped registered task of a non-raising run is invoked even
when a marker or journal entry exists, its journal entry is rewritten to
true, and its marker file is rewritten provided the run is not in dry-run
mode (with force alone dry-run resolves false, but an explicit dry-run flag
suppresses the marker write) and the body reached its final marking step. -/
theorem claim_C5_force_and_completion_skip (args : Args) (sudoAnswer : Option Bool)
    (context : String) (outcomes : String → BodyOutcome)
    (tasks : List TaskDefinition) (completed : Dict) (markers : List String)
    (k : String) :
    (args.force = false → (k ∈ markers ∨ dictGetTruthy completed k = true) →
      k ∉ (runLoop args.force (ensure_command_execution_safety args sudoAnswer)
            context outcomes tasks completed markers).invoked) ∧
    (args.force = true → ∀ t ∈ tasks, t.key = k →
      should_skip k context = false → TASK_IMPLEMENTATION_KEYS.contains k = true →
      (runLoop args.force (ensure_command_execution_safety args sudoAnswer)
          context outcomes tasks completed markers).raised = false →
      k ∈ (runLoop args.force (ensure_command_execution_safety args sudoAnswer)
            context outcomes tasks completed markers).invoked ∧
      dictGet (runLoop args.force (ensure_command_execution_safety args sudoAnswer)
          context outcomes tasks completed markers).completed k
        = some (Json.bool true)) ∧
    (args.force = true → args.dry_run = false → ∀ t ∈ tasks, t.key = k →
      should_skip k context = false → TASK_IMPLEMENTATION_KEYS.contains k = true →
      outcomes k = BodyOutcome.ret true →
      (runLoop args.force (ensure_command_execution_safety args sudoAnswer)
          context outcomes tasks completed markers).raised = false →
      k ∈ (runLoop args.force (ensure_command_execution_safety args sudoAnswer)
            context outcomes tasks completed markers).markersWritten) := by
  refine ⟨?_, ?_, ?_⟩
  · intro hf hk
    rw [hf]
    exact runLoop_already_complete_not_invoked _ _ _ _ _ _ _ hk
  · intro hf t ht hkey hns himpl hr
    subst hkey
    rw [hf] at hr ⊢
    constructor
    · exact runLoop_force_invoked _ _ _ _ _ _ t hns himpl ht hr
    · exact runLoop_invoked_completed _ _ _ _ _ _ _ hr t.key
        (runLoop_force_invoked _ _ _ _ _ _ t hns himpl ht hr)
  · intro hf hd t ht hkey hns himpl hout hr
    subst hkey
    rw [hf] at hr ⊢
    have hdry : (ensure_command_execution_safety args sudoAnswer).dry_run = false := by
      simp [ensure_command_execution_safety, hf, hd]
    exact (runLoop_force_marks _ _ _ _ _ _ t hdry hns himpl hout ht hr).1

/-- Witness for the amended C5: a forced, non-dry-run rerun of the git task
with an existing marker and journal entry invokes the body and rewrites the
marker. -/
theorem claim_C5_force_and_completion_skip_witness :
    "git" ∈ (runLoop true (ensure_command_execution_safety ⟨some "git", false, false, true, true⟩ none)
        Context.ROOT (fun _ => BodyOutcome.ret true)
        [⟨"git", "Git setup", "Configure git identity"⟩]
        [("git", Json.bool true)] ["git"]).invoked ∧
    "git" ∈ (runLoop true (ensure_command_execution_safety ⟨some "git", false, false, true, true⟩ none)
        Context.ROOT (fun _ => BodyOutcome.ret true)
        [⟨"git", "Git setup", "Configure git identity"⟩]
        [("git", Json.bool true)] ["git"]).markersWritten :=
  ⟨((claim_C5_force_and_completion_skip ⟨some "git", false, false, true, true⟩ none
      Context.ROOT (fun _ => BodyOutcome.ret true)
      [⟨"git", "Git setup", "Configure git identity"⟩]
      [("git", Json.bool true)] ["git"] "git").2.1 rfl
      ⟨"git", "Git setup", "Configure git identity"⟩
      (List.mem_singleton.mpr rfl) rfl rfl rfl rfl).1,
   (claim_C5_force_and_completion_skip ⟨some "git", false, false, true, true⟩ none
      Context.ROOT (fun _ => BodyOutcome.ret true)
      [⟨"git", "Git setup", "Configure git identity"⟩]
      [("git", Json.bool true)] ["git"] "git").2.2 rfl rfl
      ⟨"git", "Git setup", "Configure git identity"⟩
      (List.mem_singleton.mpr rfl) rfl rfl rfl rfl rfl⟩

/-- Whatever journal a `mainModel` run saves agrees with the loaded journal
at every key, except for entries rewritten to `true`. -/
theorem mainModel_saved_monotone (inp : WorkflowInput) (eff : RunEffects)
    (saved : Dict) (hok : mainModel inp = Except.ok eff)
    (hsave : eff.savedJournal = some saved) (k : String) :
    dictGet saved k = dictGet inp.journal k ∨
    dictGet saved k = some (Json.bool true) := by
  obtain ⟨selected, ordered, -, -, rfl⟩ := mainModel_ok_shape inp eff hok
  rw [runLoop_savedJournal] at hsave
  by_cases hr : (runLoop inp.args.force
      (ensure_command_execution_safety inp.args inp.sudoAnswer)
      inp.context inp.outcomes ordered inp.journal inp.markers0).raised = true
  · rw [if_pos hr] at hsave
    exact Option.noConfusion hsave
  · rw [if_neg hr] at hsave
    obtain rfl : saved = _ := (Option.some.inj hsave).symm
    exact runLoop_completed_monotone _ _ _ _ _ _ _ k

/-! ## Claim C7 -/

/-- A run whose loaded journal contains a key that is not in the registry. -/
def c7JournalInput : WorkflowInput :=
  { args := ⟨some "git", false, false, true, true⟩
    sudoAnswer := none
    context := Context.ROOT
    menuSelection := none
    journal := [("bogus", Json.bool true)]
    markers0 := []
    outcomes := fun _ => BodyOutcome.ret true }

/-- C7 counterexample: "bogus" is not a registry key, yet a loaded journal
containing it is accepted without any validation, carried through the run,
and rewritten verbatim into the saved journal — an unknown key is silently
retained from the journal source. -/
theorem claim_C7_counterexample :
    isRegisteredKey "bogus" = false ∧
    (mainModel c7JournalInput).toOption.map (fun r => r.savedJournal) =
      some (some [("bogus", Json.bool true), ("git", Json.bool true)]) :=
  ⟨rfl, rfl⟩

/-- C7 amended: an explicit comma-separated task list is batch-validated
against the registry at resolution time — any unknown token aborts the whole
resolution with all invalid tokens named together, and a resolution failure
aborts `main` before any task executes.  Journal keys, however, are not
validated: every loaded journal entry (registered or not) is retained and
written back to the saved journal. -/
theorem claim_C7_batch_validation_explicit_only :
    (∀ (args : Args) (context : String) (use_menu : Bool)
        (menuSelection : Option (List Nat)),
      pyStrTruthy args.tasks = true →
      (parseTaskTokens (args.tasks.getD "")).filter
          (fun token => !isRegisteredKey token) ≠ [] →
      resolve_tasks args context use_menu menuSelection =
        Except.error ("Invalid task identifiers: " ++ String.intercalate ", "
          ((parseTaskTokens (args.tasks.getD "")).filter
            (fun token => !isRegisteredKey token)))) ∧
    (∀ (inp : WorkflowInput) (e : String),
      resolve_tasks inp.args inp.context (!inp.args.no_menu) inp.menuSelection =
        Except.error e →
      mainModel inp = Except.error e) ∧
    (∀ (inp : WorkflowInput) (eff : RunEffects) (saved : Dict),
      mainModel inp = Except.ok eff → eff.savedJournal = some saved →
      ∀ k v, dictGet inp.journal k = some v →
        dictGet saved k = some v ∨ dictGet saved k = some (Json.bool true)) := by
  refine ⟨?_, ?_, ?_⟩
  · intro args context use_menu menuSel hts hinv
    unfold resolve_tasks
    rw [if_pos hts, if_pos (by simpa using hinv)]
  · intro inp e hres
    unfold mainModel
    rw [hres]
  · intro inp eff saved hok hsave k v hkv
    rcases mainModel_saved_monotone inp eff saved hok hsave k with h1 | h1
    · left
      rw [h1, hkv]
    · right
      exact h1

/-- Witness for the amended C7 on a concrete invalid list. -/
theorem claim_C7_batch_validation_explicit_only_witness :
    resolve_tasks ⟨some "git,bogus,nope", false, false, false, true⟩ Context.ROOT
        false none =
      Except.error "Invalid task identifiers: bogus, nope" :=
  claim_C7_batch_validation_explicit_only.1
    ⟨some "git,bogus,nope", false, false, false, true⟩ Context.ROOT false none
    rfl (by decide)

/-! ## Claim C8 -/

/-- First two events of a `CommandRunner.run` call that passes the sudo
permission check: the two pre-execution log lines. -/
theorem runnerRun_pre_log (dry_run sudo_allowed : Bool) (command : List String)
    (useSudo : Bool) (cwd : Option String) (processCwd timestamp : String)
    (env : List (String × String)) (check : Bool) (proc : ProcResult)
    (hsudo : useSudo = true → sudo_allowed = true) :
    (runnerRun dry_run sudo_allowed command useSudo cwd processCwd timestamp
        env check proc).events.take 2 =
      [RunEvent.log (cmdLogLine timestamp
          (shlexJoin (if useSudo then "sudo" :: "--" :: command else command))),
       RunEvent.log (ctxLogLine (match cwd with | some c => c | none => processCwd)
          useSudo (pySorted (env.map (·.1))))] := by
  cases useSudo
  · cases dry_run <;> rfl
  · have hsa := hsudo rfl
    subst hsa
    cases dry_run <;> rfl

/-- An invocation that requests sudo on a runner without elevation
permission. -/
def c8SudoDenied : RunOutcome :=
  runnerRun false false ["systemctl", "restart", "sshd"] true none "/work"
    "2024-01-01 00:00:00" [("SECRET_TOKEN", "hunter2")] true ⟨0, "", ""⟩

/-- C8 counterexample: requesting sudo on a runner constructed without
elevation permission raises the `RuntimeError` BEFORE the two log writes, so
this invocation writes no log record at all — the claim's "for every
invocation a log record is written" fails for this sudo flag value. -/
theorem claim_C8_counterexample :
    c8SudoDenied.events = [] ∧
    c8SudoDenied.result = Except.error RunnerError.sudoNotAllowed :=
  ⟨rfl, rfl⟩

/-- C8 amended: for every invocation of `CommandRunner.run` that passes the
sudo permission check, the first two events — before any subprocess spawn —
are the two log lines carrying the timestamp, the shell-quoted reconstructed
command line, the working directory, the sudo flag, and the sorted
overridden environment variable names; and this pre-execution record depends
only on the names of the overridden variables, never on their values. -/
theorem claim_C8_pre_execution_log (dry_run sudo_allowed : Bool)
    (command : List String) (useSudo : Bool) (cwd : Option String)
    (processCwd timestamp : String) (env env2 : List (String × String))
    (check : Bool) (proc proc2 : ProcResult)
    (hsudo : useSudo = true → sudo_allowed = true) :
    ((runnerRun dry_run sudo_allowed command useSudo cwd processCwd timestamp
        env check proc).events.take 2 =
      [RunEvent.log (cmdLogLine timestamp
          (shlexJoin (if useSudo then "sudo" :: "--" :: command else command))),
       RunEvent.log (ctxLogLine (match cwd with | some c => c | none => processCwd)
          useSudo (pySorted (env.map (·.1))))]) ∧
    (env.map (·.1) = env2.map (·.1) →
      (runnerRun dry_run sudo_allowed command useSudo cwd processCwd timestamp
          env2 check proc2).events.take 2 =
      (runnerRun dry_run sudo_allowed command useSudo cwd processCwd timestamp
          env check proc).events.take 2) := by
  refine ⟨runnerRun_pre_log dry_run sudo_allowed command useSudo cwd processCwd
    timestamp env check proc hsudo, ?_⟩
  intro hkeys
  rw [runnerRun_pre_log dry_run sudo_allowed command useSudo cwd processCwd
      timestamp env2 check proc2 hsudo,
    runnerRun_pre_log dry_run sudo_allowed command useSudo cwd processCwd
      timestamp env check proc hsudo,
    hkeys]

/-- Witness for the amended C8 on a concrete sudo dry-run invocation. -/
theorem claim_C8_pre_execution_log_witness :
    (runnerRun true true ["ls", "a b"] true none "/w" "ts"
        [("B", "x"), ("A", "y")] true ⟨0, "", ""⟩).events.take 2 =
      [RunEvent.log (cmdLogLine "ts" (shlexJoin ["sudo", "--", "ls", "a b"])),
       RunEvent.log (ctxLogLine "/w" true ["A", "B"])] :=
  (claim_C8_pre_execution_log true true ["ls", "a b"] true none "/w" "ts"
    [("B", "x"), ("A", "y")] [("B", "other"), ("A", "values")] true
    ⟨0, "", ""⟩ ⟨1, "out", "err"⟩ (fun _ => rfl)).1

/-! ## Claim C10 -/

/-- C10: the journal is monotone from load to save: every key of the loaded
resume state is still present in the saved journal with its value unchanged
or rewritten to true (so no entry ever goes from truthy to falsy, and the
set of keys mapped truthy never shrinks), and every entry the run itself
adds has value true. -/
theorem claim_C10_journal_monotone (inp : WorkflowInput) (eff : RunEffects)
    (h : mainModel inp = Except.ok eff) (saved : Dict)
    (hsave : eff.savedJournal = some saved) :
    (∀ k v, dictGet inp.journal k = some v →
      dictGet saved k = some v ∨ dictGet saved k = some (Json.bool true)) ∧
    (∀ k, dictGet inp.journal k = none → ∀ v, dictGet saved k = some v →
      v = Json.bool true) ∧
    (∀ k, dictGetTruthy inp.journal k = true → dictGetTruthy saved k = true) := by
  have hm := fun k => mainModel_saved_monotone inp eff saved h hsave k
  refine ⟨?_, ?_, ?_⟩
  · intro k v hkv
    rcases hm k with h1 | h1
    · left
      rw [h1, hkv]
    · right
      exact h1
  · intro k hnone v hv
    rcases hm k with h1 | h1
    · rw [h1, hnone] at hv
      exact Option.noConfusion hv
    · rw [h1] at hv
      exact (Option.some.inj hv).symm
  · intro k htruthy
    rcases hm k with h1 | h1
    · unfold dictGetTruthy at htruthy ⊢
      rw [h1]
      exact htruthy
    · unfold dictGetTruthy
      rw [h1]
      rfl

/-- A forced run of the git task resuming from a journal with a truthy
non-boolean ssh entry. -/
def c10Input : WorkflowInput :=
  { args := ⟨some "git", false, false, true, true⟩
    sudoAnswer := none
    context := Context.ROOT
    menuSelection := none
    journal := [("ssh", Json.num 1)]
    markers0 := []
    outcomes := fun _ => BodyOutcome.ret true }

/-- The effects of `c10Input`. -/
def c10Effects : RunEffects :=
  { invoked := ["git"], markersWritten := ["git"], contextSkipped := []
    completed := [("ssh", Json.num 1), ("git", Json.bool true)], raised := false
    savedJournal := some [("ssh", Json.num 1), ("git", Json.bool true)] }

/-- Witness for C10 on a concrete resumed run. -/
theorem claim_C10_journal_monotone_witness :
    dictGet [("ssh", Json.num 1), ("git", Json.bool true)] "ssh" = some (Json.num 1) ∨
    dictGet [("ssh", Json.num 1), ("git", Json.bool true)] "ssh" =
      some (Json.bool true) :=
  (claim_C10_journal_monotone c10Input c10Effects rfl
    [("ssh", Json.num 1), ("git", Json.bool true)] rfl).1 "ssh" (Json.num 1) rfl

end ServerInit
